import Mathlib

/-!
Verification development for the image-cropper repository's Crop Compositing
Engine: the framing heuristic estimator, the viewport coordinate transform,
the rasterizer/compositor, the greyscale color transform, and the per-image
edit state machine (`ImageProcessor.tsx` / `ImageEditor.tsx` /
`DownloadManager.tsx`).

Real-number arithmetic of the source (JS doubles) is modelled by exact
rational arithmetic `ℚ`.  For the degenerate-dimension analysis, where the
source's behaviour hinges on JavaScript's total arithmetic (division by zero
yielding infinities and NaN rather than an exception), a separate extended
number type `JNum` mirrors those semantics.
-/

namespace Cropper

/-- One RGBA pixel, channels as stored in a `Uint8ClampedArray` (0..255). -/
structure Pixel where
  r : ℕ
  g : ℕ
  b : ℕ
  a : ℕ
deriving DecidableEq, Repr

/-- The opaque white background fill (`ctx.fillStyle = "white"` on an opaque
canvas), used to initialize the 300×400 output before drawing. -/
def white : Pixel := ⟨255, 255, 255, 255⟩

/-! ## Viewport transform (ImageEditor.tsx)

The preview positions the scaled image with CSS
`translate(position.x, position.y)` around `scale(zoom/100)` with top-left
origin (lines 415 and 428), so a source point appears at
`display = source * (zoom/100) + position`.  At commit, `handleSave`
recovers source coordinates from output-frame coordinates by
`source = (outputCoord - position) / (zoom/100)` (lines 280–289). -/

/-- Source: `const zoomFactor = zoom / 100` (ImageEditor.tsx line 272). -/
def zoomFactor (zoom : ℚ) : ℚ := zoom / 100

/-- Forward viewport mapping (source-pixel space → output-frame display
space), from the preview CSS transform: `display = source·(zoom/100) + pan`. -/
def forwardMap (zoom px py sx sy : ℚ) : ℚ × ℚ :=
  (sx * zoomFactor zoom + px, sy * zoomFactor zoom + py)

/-- Inverse viewport mapping (output-frame space → source-pixel space), used
by `handleSave`: `source = (outputCoord − pan) / (zoom/100)`. -/
def inverseMap (zoom px py dx dy : ℚ) : ℚ × ℚ :=
  ((dx - px) / zoomFactor zoom, (dy - py) / zoomFactor zoom)

/-! ## Rasterizer/compositor (`handleSave`, ImageEditor.tsx lines 250–317)

The canvas is set to exactly 300×400, filled white, and then the visible
source rectangle — clamped to the image bounds — is drawn into the
corresponding destination sub-rectangle.  We model the resulting buffer as
its dimensions plus a pixel function: a pixel inside the destination
rectangle samples the source at the inverse-mapped point, every other pixel
keeps the white fill (`drawImage` paints nothing outside its destination
rectangle, and paints nothing at all when the clamped rectangle is empty). -/

/-- Source: `sourceLeft = visibleLeft / zoomFactor`, `visibleLeft = -position.x`. -/
def sourceLeft (zoom posx : ℚ) : ℚ := (-posx) / zoomFactor zoom

/-- Source: `sourceTop = visibleTop / zoomFactor`, `visibleTop = -position.y`. -/
def sourceTop (zoom posy : ℚ) : ℚ := (-posy) / zoomFactor zoom

/-- Source: `sourceRight = visibleRight / zoomFactor`, `visibleRight = visibleLeft + 300`. -/
def sourceRight (zoom posx : ℚ) : ℚ := (-posx + 300) / zoomFactor zoom

/-- Source: `sourceBottom = visibleBottom / zoomFactor`, `visibleBottom = visibleTop + 400`. -/
def sourceBottom (zoom posy : ℚ) : ℚ := (-posy + 400) / zoomFactor zoom

/-- Source: `clampedSourceLeft = Math.max(0, sourceLeft)`. -/
def clampedSourceLeft (zoom posx : ℚ) : ℚ := max 0 (sourceLeft zoom posx)

/-- Source: `clampedSourceTop = Math.max(0, sourceTop)`. -/
def clampedSourceTop (zoom posy : ℚ) : ℚ := max 0 (sourceTop zoom posy)

/-- Source: `clampedSourceRight = Math.min(imgWidth, sourceRight)`. -/
def clampedSourceRight (imgWidth zoom posx : ℚ) : ℚ :=
  min imgWidth (sourceRight zoom posx)

/-- Source: `clampedSourceBottom = Math.min(imgHeight, sourceBottom)`. -/
def clampedSourceBottom (imgHeight zoom posy : ℚ) : ℚ :=
  min imgHeight (sourceBottom zoom posy)

/-- Source: `clampedSourceWidth = clampedSourceRight - clampedSourceLeft`. -/
def clampedSourceWidth (imgWidth zoom posx : ℚ) : ℚ :=
  clampedSourceRight imgWidth zoom posx - clampedSourceLeft zoom posx

/-- Source: `clampedSourceHeight = clampedSourceBottom - clampedSourceTop`. -/
def clampedSourceHeight (imgHeight zoom posy : ℚ) : ℚ :=
  clampedSourceBottom imgHeight zoom posy - clampedSourceTop zoom posy

/-- Source: `destLeft = (clampedSourceLeft - sourceLeft) * zoomFactor`. -/
def destLeft (zoom posx : ℚ) : ℚ :=
  (clampedSourceLeft zoom posx - sourceLeft zoom posx) * zoomFactor zoom

/-- Source: `destTop = (clampedSourceTop - sourceTop) * zoomFactor`. -/
def destTop (zoom posy : ℚ) : ℚ :=
  (clampedSourceTop zoom posy - sourceTop zoom posy) * zoomFactor zoom

/-- Source: `destWidth = clampedSourceWidth * zoomFactor`. -/
def destWidth (imgWidth zoom posx : ℚ) : ℚ :=
  clampedSourceWidth imgWidth zoom posx * zoomFactor zoom

/-- Source: `destHeight = clampedSourceHeight * zoomFactor`. -/
def destHeight (imgHeight zoom posy : ℚ) : ℚ :=
  clampedSourceHeight imgHeight zoom posy * zoomFactor zoom

/-- An output pixel buffer: the canvas dimensions together with the pixel at
each integer grid point. -/
structure OutBuffer where
  width : ℕ
  height : ℕ
  pix : ℕ → ℕ → Pixel

/-- The pixel of the committed crop at output coordinates `(x, y)`: if the
point lies in the destination sub-rectangle computed by `handleSave`, it is
drawn from the source (sampled at the inverse-mapped source point); otherwise
it keeps the white background fill of step 1. -/
def commitCropPix (imgWidth imgHeight zoom posx posy : ℚ)
    (src : ℚ → ℚ → Pixel) (x y : ℕ) : Pixel :=
  if destLeft zoom posx ≤ (x : ℚ) ∧
     (x : ℚ) < destLeft zoom posx + destWidth imgWidth zoom posx ∧
     destTop zoom posy ≤ (y : ℚ) ∧
     (y : ℚ) < destTop zoom posy + destHeight imgHeight zoom posy then
    src (clampedSourceLeft zoom posx + ((x : ℚ) - destLeft zoom posx) / zoomFactor zoom)
        (clampedSourceTop zoom posy + ((y : ℚ) - destTop zoom posy) / zoomFactor zoom)
  else white

/-- The whole commit (`handleSave` rasterization): `canvas.width = 300`,
`canvas.height = 400`, white fill, then the clamped `drawImage`. -/
def commitCrop (imgWidth imgHeight zoom posx posy : ℚ)
    (src : ℚ → ℚ → Pixel) : OutBuffer :=
  ⟨300, 400, commitCropPix imgWidth imgHeight zoom posx posy src⟩

/-! ## Framing heuristic estimator (`detectFaceAndCrop`, ImageEditor.tsx lines 94–166)

The estimator classifies the aspect ratio `imgWidth / imgHeight` into three
bands, proposes a candidate subject rectangle, clamps it to the image bounds,
chooses a zoom so the rectangle's limiting dimension fills the 300×400
output, clamps the zoom to `[10, 200]`, and computes the pan that centres
the rectangle in the output frame. -/

/-- A candidate subject rectangle `(faceX, faceY, faceWidth, faceHeight)`. -/
structure FaceRect (α : Type) where
  x : α
  y : α
  w : α
  h : α
deriving DecidableEq, Repr

/-- The pre-clamp candidate subject rectangle (ImageEditor.tsx lines 100–121).
Note the first band test is strict on both sides:
`aspectRatio > 0.6 && aspectRatio < 1.5`. -/
def candidateFace (iw ih : ℚ) : FaceRect ℚ :=
  let r := iw / ih
  if 0.6 < r ∧ r < 1.5 then
    let fw := min (iw * 0.4) (ih * 0.3)
    ⟨(iw - fw) / 2, ih * 0.15, fw, fw * 1.2⟩
  else if 1.5 ≤ r then
    let fw := min (iw * 0.25) (ih * 0.6)
    let fh := fw * 1.2
    ⟨iw * 0.3, (ih - fh) / 2, fw, fh⟩
  else
    let fw := min (iw * 0.6) (ih * 0.45)
    ⟨(iw - fw) / 2, ih * 0.1, fw, fw * 1.33⟩

/-- Sequential clamp of the candidate rectangle to the image bounds
(ImageEditor.tsx lines 123–127): the width/height clamps use the already
updated `faceX`/`faceY`. -/
def clampFace (iw ih : ℚ) (f : FaceRect ℚ) : FaceRect ℚ :=
  let fx := max 0 (min f.x (iw - f.w))
  let fy := max 0 (min f.y (ih - f.h))
  let fw := min f.w (iw - fx)
  let fh := min f.h (ih - fy)
  ⟨fx, fy, fw, fh⟩

/-- The clamped subject rectangle the zoom/pan computation works from. -/
def detectFace (iw ih : ℚ) : FaceRect ℚ :=
  clampFace iw ih (candidateFace iw ih)

/-- The unclamped zoom choice (ImageEditor.tsx lines 129–140): compare the
rectangle's aspect `faceWidth/faceHeight` with the output aspect `300/400`;
fit by height when the rectangle is relatively wider, else by width. -/
def rawZoom (iw ih : ℚ) : ℚ :=
  let f := detectFace iw ih
  if 300 / 400 < f.w / f.h then (400 / f.h) * 100 else (300 / f.w) * 100

/-- Source: `newZoom = Math.max(10, Math.min(200, newZoom))` (ImageEditor.tsx line 143). -/
def clampZoom (z : ℚ) : ℚ := max 10 (min 200 z)

/-- The estimator's final zoom. -/
def estZoom (iw ih : ℚ) : ℚ := clampZoom (rawZoom iw ih)

/-- The estimator's final pan (ImageEditor.tsx lines 145–152):
`newX = 150 - faceX·(z/100) - (faceWidth·(z/100))/2` and symmetrically for
`newY` with 200. -/
def estPan (iw ih : ℚ) : ℚ × ℚ :=
  let f := detectFace iw ih
  let z := estZoom iw ih
  (150 - f.x * (z / 100) - (f.w * (z / 100)) / 2,
   200 - f.y * (z / 100) - (f.h * (z / 100)) / 2)

/-! ## JavaScript number semantics for degenerate dimensions

`detectFaceAndCrop` wraps its arithmetic in `try`/`catch`, with the `catch`
setting `zoom = 100, position = (0,0)`.  JavaScript arithmetic is total:
division by zero yields `±Infinity` (or `NaN` for `0/0`) instead of throwing,
so whether the fallback can ever run depends on those semantics.  `JNum`
models a JS number as an exact rational extended with the three special
values; comparisons involving `NaN` are false and `Math.min`/`Math.max`
propagate `NaN`, as in JS. -/

/-- A JavaScript number: finite (exact rational), `±Infinity`, or `NaN`. -/
inductive JNum : Type where
  | num : ℚ → JNum
  | posInf : JNum
  | negInf : JNum
  | nan : JNum
deriving DecidableEq, Repr

namespace JNum

/-- JS `<` (false whenever `NaN` is involved). -/
def lt : JNum → JNum → Bool
  | nan, _ => false
  | _, nan => false
  | negInf, negInf => false
  | negInf, _ => true
  | _, negInf => false
  | posInf, _ => false
  | num _, posInf => true
  | num a, num b => decide (a < b)

/-- JS `<=` (false whenever `NaN` is involved). -/
def le : JNum → JNum → Bool
  | nan, _ => false
  | _, nan => false
  | negInf, _ => true
  | _, negInf => false
  | _, posInf => true
  | posInf, _ => false
  | num a, num b => decide (a ≤ b)

/-- JS addition. -/
def add : JNum → JNum → JNum
  | nan, _ => nan
  | _, nan => nan
  | posInf, negInf => nan
  | negInf, posInf => nan
  | posInf, _ => posInf
  | _, posInf => posInf
  | negInf, _ => negInf
  | _, negInf => negInf
  | num a, num b => num (a + b)

/-- JS subtraction. -/
def sub : JNum → JNum → JNum
  | nan, _ => nan
  | _, nan => nan
  | posInf, posInf => nan
  | negInf, negInf => nan
  | posInf, _ => posInf
  | negInf, _ => negInf
  | num _, posInf => negInf
  | num _, negInf => posInf
  | num a, num b => num (a - b)

/-- JS multiplication (`±Infinity · 0 = NaN`). -/
def mul : JNum → JNum → JNum
  | nan, _ => nan
  | _, nan => nan
  | posInf, posInf => posInf
  | posInf, negInf => negInf
  | negInf, posInf => negInf
  | negInf, negInf => posInf
  | posInf, num b => if b = 0 then nan else if 0 < b then posInf else negInf
  | num a, posInf => if a = 0 then nan else if 0 < a then posInf else negInf
  | negInf, num b => if b = 0 then nan else if 0 < b then negInf else posInf
  | num a, negInf => if a = 0 then nan else if 0 < a then negInf else posInf
  | num a, num b => num (a * b)

/-- JS division: `x/0` is `±Infinity` for `x ≠ 0` and `NaN` for `0/0`
(our zero is JS `+0`). -/
def div : JNum → JNum → JNum
  | nan, _ => nan
  | _, nan => nan
  | posInf, posInf => nan
  | posInf, negInf => nan
  | negInf, posInf => nan
  | negInf, negInf => nan
  | posInf, num b => if 0 ≤ b then posInf else negInf
  | negInf, num b => if 0 ≤ b then negInf else posInf
  | num _, posInf => num 0
  | num _, negInf => num 0
  | num a, num b =>
    if b = 0 then (if a = 0 then nan else if 0 < a then posInf else negInf)
    else num (a / b)

/-- JS `Math.min` (`NaN` if any argument is `NaN`). -/
def jmin : JNum → JNum → JNum
  | nan, _ => nan
  | _, nan => nan
  | a, b => if lt a b then a else b

/-- JS `Math.max` (`NaN` if any argument is `NaN`). -/
def jmax : JNum → JNum → JNum
  | nan, _ => nan
  | _, nan => nan
  | a, b => if lt a b then b else a

end JNum

/-! The estimator again, verbatim over `JNum`, so that its behaviour on
degenerate (zero) dimensions — where JS produces infinities and `NaN`
instead of raising an exception — is captured exactly. -/

/-- The `detectFaceAndCrop` candidate rectangle over JS numbers
(ImageEditor.tsx lines 100–121). -/
def candidateFaceJS (iw ih : JNum) : FaceRect JNum :=
  let r := iw.div ih
  if (JNum.num 0.6).lt r && r.lt (JNum.num 1.5) then
    let fw := JNum.jmin (iw.mul (JNum.num 0.4)) (ih.mul (JNum.num 0.3))
    ⟨(iw.sub fw).div (JNum.num 2), ih.mul (JNum.num 0.15), fw, fw.mul (JNum.num 1.2)⟩
  else if (JNum.num 1.5).le r then
    let fw := JNum.jmin (iw.mul (JNum.num 0.25)) (ih.mul (JNum.num 0.6))
    let fh := fw.mul (JNum.num 1.2)
    ⟨iw.mul (JNum.num 0.3), (ih.sub fh).div (JNum.num 2), fw, fh⟩
  else
    let fw := JNum.jmin (iw.mul (JNum.num 0.6)) (ih.mul (JNum.num 0.45))
    ⟨(iw.sub fw).div (JNum.num 2), ih.mul (JNum.num 0.1), fw, fw.mul (JNum.num 1.33)⟩

/-- Boundary clamp over JS numbers (ImageEditor.tsx lines 123–127). -/
def clampFaceJS (iw ih : JNum) (f : FaceRect JNum) : FaceRect JNum :=
  let fx := JNum.jmax (JNum.num 0) (JNum.jmin f.x (iw.sub f.w))
  let fy := JNum.jmax (JNum.num 0) (JNum.jmin f.y (ih.sub f.h))
  let fw := JNum.jmin f.w (iw.sub fx)
  let fh := JNum.jmin f.h (ih.sub fy)
  ⟨fx, fy, fw, fh⟩

/-- The clamped subject rectangle over JS numbers. -/
def detectFaceJS (iw ih : JNum) : FaceRect JNum :=
  clampFaceJS iw ih (candidateFaceJS iw ih)

/-- Zoom choice over JS numbers (ImageEditor.tsx lines 129–140). -/
def rawZoomJS (iw ih : JNum) : JNum :=
  let f := detectFaceJS iw ih
  if ((JNum.num 300).div (JNum.num 400)).lt (f.w.div f.h) then
    ((JNum.num 400).div f.h).mul (JNum.num 100)
  else
    ((JNum.num 300).div f.w).mul (JNum.num 100)

/-- Clamped zoom over JS numbers (ImageEditor.tsx line 143). -/
def estZoomJS (iw ih : JNum) : JNum :=
  JNum.jmax (JNum.num 10) (JNum.jmin (JNum.num 200) (rawZoomJS iw ih))

/-- Pan over JS numbers (ImageEditor.tsx lines 145–152). -/
def estPanJS (iw ih : JNum) : JNum × JNum :=
  let f := detectFaceJS iw ih
  let z := estZoomJS iw ih
  let zf := z.div (JNum.num 100)
  (((JNum.num 150).sub (f.x.mul zf)).sub ((f.w.mul zf).div (JNum.num 2)),
   ((JNum.num 200).sub (f.y.mul zf)).sub ((f.h.mul zf).div (JNum.num 2)))

/-! ## Editor state and zoom updates -/

/-- The editor's per-image mutable state relevant here: `zoom`, `position`,
`isGreyscale` (ImageEditor.tsx lines 52–59). -/
structure EditorState where
  zoom : ℚ
  posx : ℚ
  posy : ℚ
  isGreyscale : Bool
deriving DecidableEq, Repr

/-- Model of `handleZoomChange` (ImageEditor.tsx lines 226–228): stores the slider's
requested value `value[0]` directly — `setZoom(value[0])`, with no clamping
in the handler itself. -/
def handleZoomChange (v : ℚ) (st : EditorState) : EditorState :=
  { st with zoom := v }

/-- The zoom restored from a previously saved crop (ImageEditor.tsx
line 182): `setZoom(selectedImage.crop.zoom || 100)` — the saved value is
used unchanged unless it is falsy (0). -/
def restoreZoom (cropZoom : ℚ) : ℚ :=
  if cropZoom = 0 then 100 else cropZoom

/-! ## Greyscale color transform (`handleSave`, ImageEditor.tsx lines 319–334)

`grey = data[i]·0.299 + data[i+1]·0.587 + data[i+2]·0.114`, stored back into
the `Uint8ClampedArray` channels (which clamps to `[0,255]` and rounds to
the nearest integer, ties to even); alpha untouched. -/

/-- The `Uint8ClampedArray` store conversion: clamp to `[0, 255]`, round to the
nearest integer with ties to even. -/
def clampRound (q : ℚ) : ℕ :=
  if q ≤ 0 then 0
  else if 255 ≤ q then 255
  else if q - ⌊q⌋ < 1 / 2 then (⌊q⌋).toNat
  else if 1 / 2 < q - ⌊q⌋ then (⌊q⌋).toNat + 1
  else if (⌊q⌋).toNat % 2 = 0 then (⌊q⌋).toNat else (⌊q⌋).toNat + 1

/-- The per-pixel greyscale transform: all three channels set to the common
luma value, alpha unchanged. -/
def greyscalePixel (p : Pixel) : Pixel :=
  let grey : ℚ := (p.r : ℚ) * 0.299 + (p.g : ℚ) * 0.587 + (p.b : ℚ) * 0.114
  ⟨clampRound grey, clampRound grey, clampRound grey, p.a⟩

/-- The loop over the `ImageData` of the rasterized output buffer. -/
def applyGreyscale (buf : List Pixel) : List Pixel :=
  buf.map greyscalePixel

/-! ## Per-image edit state (ImageProcessor.tsx / DownloadManager.tsx) -/

/-- The committed crop metadata passed to `onImageSave`
(ImageEditor.tsx lines 341–350). -/
structure CropData where
  x : ℚ
  y : ℚ
  width : ℚ
  height : ℚ
  zoom : ℚ
  posx : ℚ
  posy : ℚ
  croppedUrl : Option String
  isGreyscale : Bool
deriving DecidableEq, Repr

/-- One record of the processor's image list (ImageProcessor.tsx lines 12–29). -/
structure ProcessedImage where
  id : String
  previewUrl : String
  croppedUrl : Option String
  isProcessed : Bool
  isEdited : Bool
  isAccepted : Bool
  crop : Option CropData
deriving DecidableEq, Repr

/-- A freshly uploaded record (`processImages`, ImageProcessor.tsx lines 44–53):
all flags false, no cropped URL, no crop. -/
def mkUploaded (id previewUrl : String) : ProcessedImage :=
  ⟨id, previewUrl, none, false, false, false, none⟩

/-- Completion of the mock processing step (ImageProcessor.tsx lines 65–70):
marks the record processed and sets `croppedUrl` to the preview URL. -/
def finishProcessing (img : ProcessedImage) : ProcessedImage :=
  { img with isProcessed := true, croppedUrl := some img.previewUrl }

/-- Model of `handleImageEdit` (ImageProcessor.tsx lines 88–106): on save, the matching
record gets the new cropped URL, `isEdited := true`, the crop data, and
`isAccepted := true`. -/
def handleImageEdit (images : List ProcessedImage) (imageId : String)
    (croppedUrl : String) (cropData : CropData) : List ProcessedImage :=
  images.map fun img =>
    if img.id = imageId then
      { img with croppedUrl := some croppedUrl, isEdited := true,
                 crop := some cropData, isAccepted := true }
    else img

/-- Model of `handleAcceptImage` (ImageProcessor.tsx lines 117–135): toggles the
accepted flag; when accepting a record with no cropped URL while it is the
selected image, the code only sets the flags (the comment claims the editor's
save function will handle it, but no save is invoked in either branch). -/
def handleAcceptImage (images : List ProcessedImage) (imageId : String)
    (acc : Bool) (selectedImageId : Option String) : List ProcessedImage :=
  images.map fun img =>
    if img.id = imageId then
      if acc ∧ img.croppedUrl = none ∧ selectedImageId = some imageId then
        { img with isAccepted := acc, isEdited := true }
      else
        { img with isAccepted := acc,
                   isEdited := if acc then true else img.isEdited }
    else img

/-- The per-image props handed to `DownloadManager`
(ImageProcessor.tsx lines 330–341). -/
structure DownloadImage where
  id : String
  originalName : String
  isProcessed : Bool
  croppedUrl : Option String
deriving DecidableEq, Repr

/-- The mapping `ImageProcessor` applies before passing records to
`DownloadManager`: `isProcessed := img.isProcessed && (img.isEdited ||
img.isAccepted)` and `croppedUrl := img.croppedUrl || (img.isAccepted ?
img.previewUrl : undefined)`. -/
def toDownloadImage (img : ProcessedImage) (originalName : String) : DownloadImage :=
  ⟨img.id, originalName,
   img.isProcessed && (img.isEdited || img.isAccepted),
   match img.croppedUrl with
   | some u => some u
   | none => if img.isAccepted then some img.previewUrl else none⟩

/-- The filter of `downloadSelectedAsZip` (DownloadManager.tsx lines 91–95):
a record contributes content to the archive iff
`img.isProcessed && img.croppedUrl && selectedImages.has(img.id)`. -/
def zipEligible (d : DownloadImage) (selected : Bool) : Bool :=
  d.isProcessed && d.croppedUrl.isSome && selected

/-! ## Supporting lemmas -/

/-- Values stored through the `Uint8ClampedArray` conversion never exceed 255. -/
lemma clampRound_le (q : ℚ) : clampRound q ≤ 255 := by
  unfold clampRound
  split_ifs with h1 h2 h3 h4 h5
  all_goals try norm_num
  all_goals
    have h2' : q < 255 := not_le.mp h2
    have hfl : ⌊q⌋ < 255 := Int.floor_lt.mpr (by push_cast; linarith)
    omega

/-- The `Uint8ClampedArray` conversion fixes integers already in range. -/
lemma clampRound_cast (n : ℕ) (h : n ≤ 255) : clampRound (n : ℚ) = n := by
  unfold clampRound
  rw [Int.floor_natCast]
  by_cases h0 : n = 0
  · subst h0; norm_num
  by_cases h255 : n = 255
  · subst h255; norm_num
  have hn0 : 0 < n := Nat.pos_of_ne_zero h0
  have hA : ¬ ((n : ℚ) ≤ 0) := by simp only [not_le, Nat.cast_pos]; exact hn0
  have hB : ¬ ((255 : ℚ) ≤ (n : ℚ)) := by
    simp only [not_le]
    exact_mod_cast lt_of_le_of_ne h h255
  have hC : (n : ℚ) - (((n : ℕ) : ℤ) : ℚ) < 1 / 2 := by push_cast; norm_num
  rw [if_neg hA, if_neg hB, if_pos hC]
  exact Int.toNat_natCast n

/-- The luma weights sum to one, so a grey level re-enters unchanged. -/
lemma greyscalePixel_idem (p : Pixel) :
    greyscalePixel (greyscalePixel p) = greyscalePixel p := by
  unfold greyscalePixel
  dsimp only
  rw [show ∀ c : ℕ, (c : ℚ) * 0.299 + (c : ℚ) * 0.587 + (c : ℚ) * 0.114 = (c : ℚ)
      from fun c => by ring]
  rw [clampRound_cast _ (clampRound_le _)]

/-- The subject rectangle the zoom/pan step sees when the source width is
zero and the height positive: JS numbers make its width and height zero. -/
lemma detectFaceJS_zero_width (ih : ℚ) (hih : 0 < ih) :
    detectFaceJS (.num 0) (.num ih) = ⟨.num 0, .num (ih * 0.1), .num 0, .num 0⟩ := by
  have hne : ih ≠ 0 := ne_of_gt hih
  have hr : JNum.div (.num 0) (.num ih) = .num 0 := by simp [JNum.div, hne]
  have b1 : JNum.lt (.num 0.6) (.num 0) = false := by
    simp only [JNum.lt, decide_eq_false_iff_not]
    norm_num
  have b2 : JNum.le (.num 1.5) (.num 0) = false := by
    simp only [JNum.le, decide_eq_false_iff_not]
    norm_num
  have b3 : JNum.lt (.num 0) (.num (ih * 0.45)) = true := by
    simp only [JNum.lt, decide_eq_true_eq]
    nlinarith
  have b4 : JNum.lt (.num 0) (.num 0) = false := by
    simp [JNum.lt]
  have b5 : JNum.lt (.num (ih * 0.1)) (.num ih) = true := by
    simp only [JNum.lt, decide_eq_true_eq]
    nlinarith
  have b6 : JNum.lt (.num 0) (.num (ih * 0.1)) = true := by
    simp only [JNum.lt, decide_eq_true_eq]
    nlinarith
  have b7 : JNum.lt (.num 0) (.num (ih - ih * 0.1)) = true := by
    simp only [JNum.lt, decide_eq_true_eq]
    nlinarith
  simp [detectFaceJS, candidateFaceJS, clampFaceJS, JNum.div, JNum.mul,
    JNum.sub, JNum.jmin, JNum.jmax, hne, hr, b1, b2, b3, b4, b5, b6, b7]

/-- The subject rectangle the zoom/pan step sees when the source height is
zero and the width positive: again zero width and height. -/
lemma detectFaceJS_zero_height (iw : ℚ) (hiw : 0 < iw) :
    detectFaceJS (.num iw) (.num 0) = ⟨.num (iw * 0.3), .num 0, .num 0, .num 0⟩ := by
  have hr : JNum.div (.num iw) (.num 0) = .posInf := by
    simp [JNum.div, hiw.ne', hiw]
  have b1 : JNum.lt (.num 0.6) JNum.posInf = true := by simp [JNum.lt]
  have b2 : JNum.lt JNum.posInf (.num 1.5) = false := by simp [JNum.lt]
  have b3 : JNum.le (.num 1.5) JNum.posInf = true := by simp [JNum.le]
  have b4 : JNum.lt (.num (iw * 0.25)) (.num 0) = false := by
    simp only [JNum.lt, decide_eq_false_iff_not]
    nlinarith
  have b5 : JNum.lt (.num 0) (.num 0) = false := by simp [JNum.lt]
  have b6 : JNum.lt (.num (iw * 0.3)) (.num iw) = true := by
    simp only [JNum.lt, decide_eq_true_eq]
    nlinarith
  have b7 : JNum.lt (.num 0) (.num (iw * 0.3)) = true := by
    simp only [JNum.lt, decide_eq_true_eq]
    nlinarith
  have b8 : JNum.lt (.num 0) (.num (iw - iw * 0.3)) = true := by
    simp only [JNum.lt, decide_eq_true_eq]
    nlinarith
  simp [detectFaceJS, candidateFaceJS, clampFaceJS, JNum.div, JNum.mul,
    JNum.sub, JNum.jmin, JNum.jmax, hiw, hiw.ne', hr, b1, b2, b3, b4, b5, b6, b7, b8]

/-- Once the subject rectangle has zero width and height, the zoom
computation runs `0/0 = NaN`, falls to the fit-by-width branch,
`300/0 = Infinity`, and the clamp returns 200. -/
lemma estZoomJS_of_face_degenerate (iw ih : JNum)
    (hw : (detectFaceJS iw ih).w = .num 0) (hh : (detectFaceJS iw ih).h = .num 0) :
    estZoomJS iw ih = .num 200 := by
  simp only [estZoomJS, rawZoomJS]
  rw [hw, hh]
  norm_num [JNum.div, JNum.mul, JNum.lt, JNum.jmin, JNum.jmax]

/-! ## Claims -/

/-- C1: for every source image and every viewport transform with zoom in
`[10,200]` and any pan, `commitCrop` produces a buffer of exactly 300×400
pixels; and whenever the visible source rectangle clamped to the image
bounds has zero (or negative) width or height, every pixel of the output is
the opaque white background fill. -/
theorem commitCrop_size_and_white_background (iw ih zoom posx posy : ℚ)
    (src : ℚ → ℚ → Pixel) (h1 : 10 ≤ zoom) (h2 : zoom ≤ 200) :
    (commitCrop iw ih zoom posx posy src).width = 300 ∧
    (commitCrop iw ih zoom posx posy src).height = 400 ∧
    ((clampedSourceWidth iw zoom posx ≤ 0 ∨ clampedSourceHeight ih zoom posy ≤ 0) →
      ∀ x y : ℕ, (commitCrop iw ih zoom posx posy src).pix x y = white) := by
  refine ⟨rfl, rfl, fun hdeg x y => ?_⟩
  have hzf : 0 < zoomFactor zoom := div_pos (by linarith) (by norm_num)
  show commitCropPix iw ih zoom posx posy src x y = white
  unfold commitCropPix
  rw [if_neg]
  rintro ⟨ha, hb, hc, hd⟩
  rcases hdeg with hw | hh
  · have hdw : destWidth iw zoom posx ≤ 0 := by unfold destWidth; nlinarith
    linarith
  · have hdh : destHeight ih zoom posy ≤ 0 := by unfold destHeight; nlinarith
    linarith

/-- C1 witness: the spec scenario — source 1000×1000, zoom 100,
pan (−2000, 0): exact size, and the probed pixel is white. -/
theorem commitCrop_size_and_white_background_witness :
    (commitCrop 1000 1000 100 (-2000) 0 fun _ _ => ⟨0, 0, 0, 255⟩).width = 300 ∧
    (commitCrop 1000 1000 100 (-2000) 0 fun _ _ => ⟨0, 0, 0, 255⟩).height = 400 ∧
    (commitCrop 1000 1000 100 (-2000) 0 fun _ _ => ⟨0, 0, 0, 255⟩).pix 0 0 = white :=
  ⟨(commitCrop_size_and_white_background 1000 1000 100 (-2000) 0
      (fun _ _ => ⟨0, 0, 0, 255⟩) (by norm_num) (by norm_num)).1,
   (commitCrop_size_and_white_background 1000 1000 100 (-2000) 0
      (fun _ _ => ⟨0, 0, 0, 255⟩) (by norm_num) (by norm_num)).2.1,
   (commitCrop_size_and_white_background 1000 1000 100 (-2000) 0
      (fun _ _ => ⟨0, 0, 0, 255⟩) (by norm_num) (by norm_num)).2.2
     (Or.inl (by norm_num [clampedSourceWidth, clampedSourceRight,
        clampedSourceLeft, sourceRight, sourceLeft, zoomFactor])) 0 0⟩

/-- C2 counterexample: at source 600×1000 the aspect ratio is exactly 0.6,
which the claim places in the near-square band (candidate width
`min(0.4·600, 0.3·1000) = 240`), but the code's strict `aspectRatio > 0.6`
sends it to the very-tall branch, whose candidate width is 360. -/
theorem candidateFace_boundary_counterexample :
    ((0.6 : ℚ) ≤ 600 / 1000 ∧ (600 : ℚ) / 1000 < 1.5) ∧
    (candidateFace 600 1000).w = 360 ∧
    (candidateFace 600 1000).w ≠ min ((600 : ℚ) * 0.4) ((1000 : ℚ) * 0.3) := by
  norm_num [candidateFace]

/-- C2 amended: for sources with `0.6 < W/H < 1.5` strictly, the candidate
subject rectangle is as claimed: width `min(0.4W, 0.3H)`, height 1.2× that
width, horizontally centred, top offset `0.15H`. -/
theorem candidateFace_portrait_band (iw ih : ℚ) (h1 : 0 < iw) (h2 : 0 < ih)
    (h3 : 0.6 < iw / ih) (h4 : iw / ih < 1.5) :
    candidateFace iw ih =
      ⟨(iw - min (iw * 0.4) (ih * 0.3)) / 2, ih * 0.15,
        min (iw * 0.4) (ih * 0.3), min (iw * 0.4) (ih * 0.3) * 1.2⟩ := by
  simp only [candidateFace]
  rw [if_pos ⟨h3, h4⟩]

/-- C2 amended, witness at the spec's 800×1200 portrait-band scenario. -/
theorem candidateFace_portrait_band_witness :
    candidateFace 800 1200 =
      ⟨(800 - min ((800 : ℚ) * 0.4) ((1200 : ℚ) * 0.3)) / 2, (1200 : ℚ) * 0.15,
        min ((800 : ℚ) * 0.4) ((1200 : ℚ) * 0.3),
        min ((800 : ℚ) * 0.4) ((1200 : ℚ) * 0.3) * 1.2⟩ :=
  candidateFace_portrait_band 800 1200 (by norm_num) (by norm_num)
    (by norm_num) (by norm_num)

/-- C3, evaluated at the failing input: accepting a freshly processed record
that has never been saved only flips the `isAccepted`/`isEdited` flags — no
save runs, and the accepted record still has `crop = none`. -/
theorem acceptWithoutSave_leaves_no_crop :
    handleAcceptImage [finishProcessing (mkUploaded "a" "u")] "a" true (some "a") =
      [{ finishProcessing (mkUploaded "a" "u") with
          isAccepted := true, isEdited := true }] ∧
    ({ finishProcessing (mkUploaded "a" "u") with
        isAccepted := true, isEdited := true } : ProcessedImage).isAccepted = true ∧
    ({ finishProcessing (mkUploaded "a" "u") with
        isAccepted := true, isEdited := true } : ProcessedImage).crop = none := by
  refine ⟨?_, rfl, rfl⟩
  simp [handleAcceptImage, finishProcessing, mkUploaded]

/-- C4 counterexample: degenerate width 0 (height 1000) does not produce the
claimed fallback `zoom = 100, pan = (0,0)`: the JS arithmetic never throws,
the computation runs through `Infinity`/`NaN`, and yields `zoom = 200`,
`pan = (150, 0)`. -/
theorem estimatorJS_degenerate_counterexample :
    estZoomJS (.num 0) (.num 1000) = .num 200 ∧
    estPanJS (.num 0) (.num 1000) = (.num 150, .num 0) ∧
    ¬ (estZoomJS (.num 0) (.num 1000) = .num 100 ∧
       estPanJS (.num 0) (.num 1000) = (.num 0, .num 0)) := by
  norm_num [estPanJS, estZoomJS, rawZoomJS, detectFaceJS, clampFaceJS,
    candidateFaceJS, JNum.div, JNum.mul, JNum.sub, JNum.jmin, JNum.jmax,
    JNum.lt, JNum.le]

/-- C4 amended: on degenerate dimensions (width or height zero) the
estimator does not fall back to `zoom=100, pan=(0,0)`; the arithmetic is
total, and the computed zoom is `Infinity` clamped to 200. -/
theorem estimatorJS_degenerate_zoom (iw ih : ℚ) (hiw : 0 ≤ iw) (hih : 0 ≤ ih)
    (hdeg : iw = 0 ∨ ih = 0) : estZoomJS (.num iw) (.num ih) = .num 200 := by
  rcases hdeg with rfl | rfl
  · rcases eq_or_lt_of_le hih with h | h
    · rw [← h]
      norm_num [estZoomJS, rawZoomJS, detectFaceJS, clampFaceJS,
        candidateFaceJS, JNum.div, JNum.mul, JNum.sub, JNum.jmin, JNum.jmax,
        JNum.lt, JNum.le]
    · exact estZoomJS_of_face_degenerate _ _
        (by rw [detectFaceJS_zero_width ih h]) (by rw [detectFaceJS_zero_width ih h])
  · rcases eq_or_lt_of_le hiw with h | h
    · rw [← h]
      norm_num [estZoomJS, rawZoomJS, detectFaceJS, clampFaceJS,
        candidateFaceJS, JNum.div, JNum.mul, JNum.sub, JNum.jmin, JNum.jmax,
        JNum.lt, JNum.le]
    · exact estZoomJS_of_face_degenerate _ _
        (by rw [detectFaceJS_zero_height iw h]) (by rw [detectFaceJS_zero_height iw h])

/-- C4 amended, witness at width 0, height 500. -/
theorem estimatorJS_degenerate_zoom_witness :
    estZoomJS (.num 0) (.num 500) = .num 200 :=
  estimatorJS_degenerate_zoom 0 500 le_rfl (by norm_num) (Or.inl rfl)

/-- C5 counterexample: `handleZoomChange` stores the requested value with no
clamping — requesting 500 stores 500, outside `[10,200]`; likewise a zoom of
500 restored from a saved crop is kept as 500. -/
theorem handleZoomChange_no_clamp_counterexample :
    (handleZoomChange 500 ⟨100, 0, 0, true⟩).zoom = 500 ∧
    ¬ ((handleZoomChange 500 ⟨100, 0, 0, true⟩).zoom ≤ 200) ∧
    restoreZoom 500 = 500 := by
  norm_num [handleZoomChange, restoreZoom]

/-- C5 amended: the clamp `max(10, min(200, z))` — applied only to the
estimator's computed zoom — keeps its result in `[10,200]`, is idempotent,
and is a no-op on in-range values, while `handleZoomChange` stores the
requested value unchanged. -/
theorem clampZoom_bounds_and_handleZoomChange (z : ℚ) (st : EditorState) :
    10 ≤ clampZoom z ∧ clampZoom z ≤ 200 ∧
    clampZoom (clampZoom z) = clampZoom z ∧
    (10 ≤ z → z ≤ 200 → clampZoom z = z) ∧
    (handleZoomChange z st).zoom = z := by
  have h10 : 10 ≤ clampZoom z := le_max_left _ _
  have h200 : clampZoom z ≤ 200 := max_le (by norm_num) (min_le_left _ _)
  refine ⟨h10, h200, ?_, ?_, rfl⟩
  · rw [show clampZoom (clampZoom z) = max 10 (min 200 (clampZoom z)) from rfl,
        min_eq_right h200, max_eq_right h10]
  · intro hz1 hz2
    rw [show clampZoom z = max 10 (min 200 z) from rfl,
        min_eq_right hz2, max_eq_right hz1]

/-- C5 amended, witness at in-range 150 and a concrete editor state. -/
theorem clampZoom_bounds_witness :
    clampZoom 150 = 150 ∧ (handleZoomChange 150 ⟨100, 0, 0, true⟩).zoom = 150 :=
  ⟨(clampZoom_bounds_and_handleZoomChange 150 ⟨100, 0, 0, true⟩).2.2.2.1
      (by norm_num) (by norm_num),
   (clampZoom_bounds_and_handleZoomChange 150 ⟨100, 0, 0, true⟩).2.2.2.2⟩

/-- C6: the greyscale transform maps each pixel (R,G,B,A) to (g,g,g,A) with
g the clamped-rounded luma `0.299R + 0.587G + 0.114B` and alpha unchanged;
applying it twice equals applying it once (also on whole buffers), and an
already-grey pixel (R=G=B ≤ 255) is preserved. -/
theorem greyscale_luma_and_idempotent (buf : List Pixel) (p : Pixel)
    (v al : ℕ) (hv : v ≤ 255) :
    (greyscalePixel p).r =
      clampRound ((p.r : ℚ) * 0.299 + (p.g : ℚ) * 0.587 + (p.b : ℚ) * 0.114) ∧
    (greyscalePixel p).g = (greyscalePixel p).r ∧
    (greyscalePixel p).b = (greyscalePixel p).r ∧
    (greyscalePixel p).a = p.a ∧
    greyscalePixel (greyscalePixel p) = greyscalePixel p ∧
    applyGreyscale (applyGreyscale buf) = applyGreyscale buf ∧
    greyscalePixel ⟨v, v, v, al⟩ = ⟨v, v, v, al⟩ := by
  refine ⟨rfl, rfl, rfl, rfl, greyscalePixel_idem p, ?_, ?_⟩
  · unfold applyGreyscale
    rw [List.map_map]
    have hcomp : greyscalePixel ∘ greyscalePixel = greyscalePixel := by
      funext q
      exact greyscalePixel_idem q
    rw [hcomp]
  · unfold greyscalePixel
    dsimp only
    rw [show (v : ℚ) * 0.299 + (v : ℚ) * 0.587 + (v : ℚ) * 0.114 = (v : ℚ) from by ring,
        clampRound_cast v hv]

/-- C6 witness at grey level 7 with alpha 9. -/
theorem greyscale_luma_and_idempotent_witness :
    greyscalePixel ⟨7, 7, 7, 9⟩ = ⟨7, 7, 7, 9⟩ :=
  (greyscale_luma_and_idempotent [] ⟨1, 2, 3, 4⟩ 7 9 (by norm_num)).2.2.2.2.2.2

/-- C7: for every zoom in `[10,200]` and any pan, the inverse viewport
mapping undoes the forward one exactly. -/
theorem viewport_forward_inverse (zoom px py sx sy : ℚ)
    (h1 : 10 ≤ zoom) (h2 : zoom ≤ 200) :
    inverseMap zoom px py (forwardMap zoom px py sx sy).1
      (forwardMap zoom px py sx sy).2 = (sx, sy) := by
  have hz : zoomFactor zoom ≠ 0 :=
    ne_of_gt (div_pos (by linarith) (by norm_num))
  simp only [forwardMap, inverseMap, Prod.mk.injEq]
  constructor <;> (field_simp)

/-- C7 witness at zoom 100, pan (5, −7), source point (30, 40). -/
theorem viewport_forward_inverse_witness :
    inverseMap 100 5 (-7) (forwardMap 100 5 (-7) 30 40).1
      (forwardMap 100 5 (-7) 30 40).2 = (30, 40) :=
  viewport_forward_inverse 100 5 (-7) 30 40 (by norm_num) (by norm_num)

/-- C8: for every positive source size, the estimator's pan maps the centre
of the clamped candidate subject rectangle to the output centre (150, 200)
under the (possibly clamped) estimator zoom. -/
theorem estimator_centers_subject (iw ih : ℚ) (h1 : 0 < iw) (h2 : 0 < ih) :
    forwardMap (estZoom iw ih) (estPan iw ih).1 (estPan iw ih).2
      ((detectFace iw ih).x + (detectFace iw ih).w / 2)
      ((detectFace iw ih).y + (detectFace iw ih).h / 2) = (150, 200) := by
  simp only [forwardMap, estPan, zoomFactor, Prod.mk.injEq]
  constructor <;> ring

/-- C8 witness at the spec's 800×1200 scenario. -/
theorem estimator_centers_subject_witness :
    forwardMap (estZoom 800 1200) (estPan 800 1200).1 (estPan 800 1200).2
      ((detectFace 800 1200).x + (detectFace 800 1200).w / 2)
      ((detectFace 800 1200).y + (detectFace 800 1200).h / 2) = (150, 200) :=
  estimator_centers_subject 800 1200 (by norm_num) (by norm_num)

/-- C9 counterexample: a reachable record (processed, then accepted without
any save) has no `CropResult` (`crop = none`) yet passes the zip filter, so
it contributes content (its original preview URL) to the export. -/
theorem export_without_crop_counterexample :
    handleAcceptImage [finishProcessing (mkUploaded "a" "u")] "a" true (some "a") =
      [{ finishProcessing (mkUploaded "a" "u") with
          isAccepted := true, isEdited := true }] ∧
    zipEligible (toDownloadImage
      { finishProcessing (mkUploaded "a" "u") with
        isAccepted := true, isEdited := true } "img1.jpg") true = true ∧
    ({ finishProcessing (mkUploaded "a" "u") with
        isAccepted := true, isEdited := true } : ProcessedImage).crop = none := by
  refine ⟨?_, ?_, rfl⟩
  · simp [handleAcceptImage, finishProcessing, mkUploaded]
  · simp [zipEligible, toDownloadImage, finishProcessing, mkUploaded]

/-- C9 amended: a record contributes export content iff it is processed,
edited-or-accepted, selected, and has a URL — the URL falling back to the
original preview when accepted; a committed `CropResult` is not required. -/
theorem export_condition (img : ProcessedImage) (nm : String) (sel : Bool) :
    zipEligible (toDownloadImage img nm) sel =
      (img.isProcessed && (img.isEdited || img.isAccepted) &&
        (img.croppedUrl.isSome || img.isAccepted) && sel) := by
  unfold zipEligible toDownloadImage
  cases hurl : img.croppedUrl <;> cases hacc : img.isAccepted <;> simp

/-- C10: every successful save (`handleImageEdit`) marks the matching record
accepted and edited, and attaches the crop data and cropped URL. -/
theorem save_marks_accepted (images : List ProcessedImage) (imageId url : String)
    (cd : CropData) (img : ProcessedImage)
    (hmem : img ∈ handleImageEdit images imageId url cd) (hid : img.id = imageId) :
    img.isAccepted = true ∧ img.isEdited = true ∧
    img.crop = some cd ∧ img.croppedUrl = some url := by
  unfold handleImageEdit at hmem
  rcases List.mem_map.mp hmem with ⟨img0, hmem0, rfl⟩
  by_cases h : img0.id = imageId
  · simp [h]
  · simp only [if_neg h] at hid ⊢
    exact absurd hid h

/-- The crop metadata used by the C10 witness. -/
def cdEx : CropData := ⟨0, 0, 300, 400, 100, 0, 0, some "c", true⟩

/-- The saved record of the C10 witness: the single image after
`handleImageEdit` ran on it. -/
def savedEx : ProcessedImage :=
  { mkUploaded "a" "u" with croppedUrl := some "c", isEdited := true,
                            crop := some cdEx, isAccepted := true }

/-- C10 witness: a concrete save on a one-image session. -/
theorem save_marks_accepted_witness :
    (savedEx).isAccepted = true ∧ (savedEx).isEdited = true ∧
    (savedEx).crop = some cdEx ∧ (savedEx).croppedUrl = some "c" :=
  save_marks_accepted [mkUploaded "a" "u"] "a" "c" cdEx savedEx
    (by simp [savedEx, handleImageEdit, mkUploaded]) rfl

end Cropper
